import Mathlib

/-!
Shallow embedding of the relational core of the AI-agent marketplace server
(Express + SQLite, single file `server.js`): schema rows, the browse query
builder, and the mutation handlers (login, rate, submit), together with
theorems settling the specification claims about them.
-/

namespace Marketplace

/-! ### JavaScript `parseInt` (radix unspecified: decimal with `0x` hex prefix) -/

/-- Value of a decimal digit character, `none` otherwise. -/
def decDigit (c : Char) : Option Nat :=
  if '0' ≤ c ∧ c ≤ '9' then some (c.toNat - 48) else none

/-- Value of a hexadecimal digit character, `none` otherwise. -/
def hexDigit (c : Char) : Option Nat :=
  if '0' ≤ c ∧ c ≤ '9' then some (c.toNat - 48)
  else if 'a' ≤ c ∧ c ≤ 'f' then some (c.toNat - 87)
  else if 'A' ≤ c ∧ c ≤ 'F' then some (c.toNat - 55)
  else none

/-- Accumulate leading digits (per `dig`), stopping at the first non-digit;
`none` when no digit was consumed at all (JavaScript `NaN`). -/
def parseDigits (dig : Char → Option Nat) (base : Nat) : List Char → Option Nat → Option Nat
  | [], acc => acc
  | c :: cs, acc =>
    match dig c with
    | some d => parseDigits dig base cs (some (acc.getD 0 * base + d))
    | none => acc

/-- JavaScript `parseInt(s)` with the radix argument omitted: skip leading
whitespace, optional sign, `0x`/`0X` hex prefix, then leading digits;
`none` models `NaN`. -/
def jsParseInt (s : String) : Option Int :=
  let cs := s.data.dropWhile Char.isWhitespace
  let sgn : Int := match cs with
    | '-' :: _ => -1
    | _ => 1
  let cs2 : List Char := match cs with
    | '-' :: rest => rest
    | '+' :: rest => rest
    | _ => cs
  let mag : Option Nat := match cs2 with
    | '0' :: 'x' :: rest => parseDigits hexDigit 16 rest none
    | '0' :: 'X' :: rest => parseDigits hexDigit 16 rest none
    | _ => parseDigits decDigit 10 cs2 none
  mag.map (fun n => sgn * (n : Int))

/-- `parseInt` applied to a possibly-absent request field
(`parseInt(undefined)` is `NaN`, matching `none`). -/
def jsParseIntOpt (o : Option String) : Option Int := o.bind jsParseInt

/-- JavaScript truthiness of a possibly-absent string body field:
`undefined` and the empty string are falsy. -/
def sTruthy : Option String → Bool
  | none => false
  | some s => !s.isEmpty

/-- The string value of a body field (`""` when absent; only consulted on
truthy fields). -/
def sVal (o : Option String) : String := o.getD ""

/-- `const originalAgentId = original_agent_id ? parseInt(original_agent_id) : null`
followed by the truthiness tests `originalAgentId ? … : …` downstream:
the submission carries a lineage pointer exactly when the raw field is a
non-empty string whose `parseInt` is neither `NaN` nor `0`. -/
def parseLineage (o : Option String) : Option Int :=
  if sTruthy o then
    match jsParseInt (sVal o) with
    | none => none
    | some v => if v = 0 then none else some v
  else none

/-! ### The URL regular expression, via Brzozowski derivatives

`/^(https?:\/\/)?([\da-z\.-]+)\.([a-z\.]{2,6})([\/\w \.-]*)*\/?$/`
-/

/-- Regular expressions over characters: empty language, empty string,
character class, concatenation, alternation, Kleene star. -/
inductive RE where
  | emp : RE
  | eps : RE
  | cls (p : Char → Bool) : RE
  | cat (a b : RE) : RE
  | alt (a b : RE) : RE
  | star (a : RE) : RE

/-- Does the regular expression accept the empty string? -/
def RE.nullable : RE → Bool
  | .emp => false
  | .eps => true
  | .cls _ => false
  | .cat a b => a.nullable && b.nullable
  | .alt a b => a.nullable || b.nullable
  | .star _ => true

/-- Brzozowski derivative of a regular expression by one character. -/
def RE.deriv : RE → Char → RE
  | .emp, _ => .emp
  | .eps, _ => .emp
  | .cls p, c => if p c then .eps else .emp
  | .cat a b, c =>
    if a.nullable then .alt (.cat (a.deriv c) b) (b.deriv c) else .cat (a.deriv c) b
  | .alt a b, c => .alt (a.deriv c) (b.deriv c)
  | .star a, c => .cat (a.deriv c) (.star a)

/-- Full-string match (the regex is anchored with `^…$`). -/
def RE.accepts (r : RE) (s : String) : Bool :=
  (s.data.foldl RE.deriv r).nullable

/-- A single literal character. -/
def RE.chr (c : Char) : RE := .cls (fun d => d = c)

/-- A literal string. -/
def RE.strLit (s : String) : RE := s.data.foldr (fun c r => .cat (RE.chr c) r) .eps

/-- `r?`. -/
def RE.opt (a : RE) : RE := .alt a .eps

/-- `r+`. -/
def RE.plus (a : RE) : RE := .cat a (.star a)

/-- `[\da-z\.-]`. -/
def domChar (c : Char) : Bool :=
  c.isDigit || ('a' ≤ c && c ≤ 'z') || c = '.' || c = '-'

/-- `[a-z\.]`. -/
def tldChar (c : Char) : Bool := ('a' ≤ c && c ≤ 'z') || c = '.'

/-- `[\/\w \.-]`, where `\w` is `[A-Za-z0-9_]`. -/
def pathChar (c : Char) : Bool :=
  c = '/' || c.isAlpha || c.isDigit || c = '_' || c = ' ' || c = '.' || c = '-'

/-- `([a-z\.]{2,6})`: two required class characters followed by four optional ones. -/
def tldRE : RE :=
  .cat (.cls tldChar) (.cat (.cls tldChar)
    (.cat (RE.opt (.cls tldChar)) (.cat (RE.opt (.cls tldChar))
      (.cat (RE.opt (.cls tldChar)) (RE.opt (.cls tldChar))))))

/-- The whole URL pattern
`^(https?:\/\/)?([\da-z\.-]+)\.([a-z\.]{2,6})([\/\w \.-]*)*\/?$`. -/
def urlRE : RE :=
  .cat (RE.opt (.cat (RE.strLit "http") (.cat (RE.opt (RE.chr 's')) (RE.strLit "://"))))
    (.cat (RE.plus (.cls domChar))
      (.cat (RE.chr '.')
        (.cat tldRE
          (.cat (.star (.star (.cls pathChar))) (RE.opt (RE.chr '/'))))))

/-- `urlPattern.test(link)`. -/
def urlOk (link : String) : Bool := urlRE.accepts link

/-! ### SQLite `LIKE` (case-insensitive on ASCII; `%` and `_` wildcards) -/

/-- ASCII lower-casing, as SQLite `LIKE` folds case. -/
def lowerA (c : Char) : Char :=
  if 'A' ≤ c ∧ c ≤ 'Z' then Char.ofNat (c.toNat + 32) else c

/-- Translate a SQLite `LIKE` pattern into a regular expression:
`%` matches any (possibly empty) run, `_` any single character, and any
other character matches itself up to ASCII case. -/
def likeRE : List Char → RE
  | [] => .eps
  | '%' :: p => .cat (.star (.cls (fun _ => true))) (likeRE p)
  | '_' :: p => .cat (.cls (fun _ => true)) (likeRE p)
  | c :: p => .cat (.cls (fun d => lowerA d = lowerA c)) (likeRE p)

/-- `column LIKE pat` on strings. -/
def likeStr (pat t : String) : Bool := (likeRE pat.data).accepts t

/-- Case-sensitive substring test (the specification claim's literal
"substring" predicate, for comparison with the `LIKE` semantics above). -/
def containsSub : List Char → List Char → Bool
  | needle, [] => needle.isEmpty
  | needle, c :: t => needle.isPrefixOf (c :: t) || containsSub needle t

/-! ### Schema rows (tables `users`, `agents`, `tags`, `agent_tags`, `ratings`)

Timestamps are modelled by a logical clock `Store.now`; `CURRENT_TIMESTAMP`
is the clock value at the time of the write.
-/

/-- A row of the `agents` table. -/
structure Agent where
  id : Nat
  name : String
  description : String
  category : String
  link : String
  ipfs_hash : Option String
  creator_wallet : Option String
  original_agent_id : Option Int
  fork_count : Nat
  is_premium : Bool
  created_at : Nat
deriving Repr, DecidableEq

/-- A row of the `users` table. -/
structure UserRow where
  id : Nat
  wallet_address : String
  subscription_tier : String
  lens_handle : Option String
  farcaster_handle : Option String
  created_at : Nat
  last_login : Nat
deriving Repr, DecidableEq

/-- A row of the `ratings` table (`stars` has a `CHECK` range 1..5;
`UNIQUE(agent_id, wallet_address)` is enforced at insertion, with `NULL`
wallets exempt as in SQLite). -/
structure RatingRow where
  id : Nat
  agent_id : Int
  wallet_address : Option String
  stars : Nat
  comment : Option String
  created_at : Nat
deriving Repr, DecidableEq

/-- A row of the `tags` table. -/
structure TagRow where
  id : Nat
  name : String
deriving Repr, DecidableEq

/-- A row of the `agent_tags` junction table. -/
structure AgentTagRow where
  agent_id : Nat
  tag_id : Nat
deriving Repr, DecidableEq

/-- The relational store, with auto-increment counters and the logical clock. -/
structure Store where
  agents : List Agent
  users : List UserRow
  ratings : List RatingRow
  tags : List TagRow
  agent_tags : List AgentTagRow
  nextAgentId : Nat
  nextUserId : Nat
  nextRatingId : Nat
  now : Nat
deriving Repr, DecidableEq

/-- The freshly created database. -/
def initStore : Store :=
  { agents := [], users := [], ratings := [], tags := [], agent_tags := [],
    nextAgentId := 1, nextUserId := 1, nextRatingId := 1, now := 0 }

/-! ### `POST /api/login` -/

/-- Outcome of the login handler. -/
inductive LoginResult where
  | missingWallet
  | ok (sessionWallet : String)
deriving Repr, DecidableEq

/-- `POST /api/login`: reject a falsy wallet address with a 400; otherwise run
`INSERT OR REPLACE INTO users (wallet_address, last_login) VALUES (?, CURRENT_TIMESTAMP)`.
`INSERT OR REPLACE` deletes any row conflicting on the unique wallet column and
inserts a brand-new row, so every column not named in the statement is the
column default, and the row receives a fresh auto-increment id. -/
def login (s : Store) (walletAddress signature : Option String) : LoginResult × Store :=
  if sTruthy walletAddress then
    let w := sVal walletAddress
    let fresh : UserRow :=
      { id := s.nextUserId, wallet_address := w, subscription_tier := "creator",
        lens_handle := none, farcaster_handle := none,
        created_at := s.now, last_login := s.now }
    (.ok w,
      { s with users := (s.users.filter (fun u => u.wallet_address ≠ w)) ++ [fresh],
               nextUserId := s.nextUserId + 1, now := s.now + 1 })
  else (.missingWallet, s)

/-! ### `POST /rate` -/

/-- The form body of a rating request; absent fields are `none`. -/
structure RateReq where
  agent_id : Option String
  stars : Option String
  comment : Option String
deriving Repr, DecidableEq

/-- Outcome of the rating handler (every branch redirects to the agent page). -/
inductive RateOutcome where
  | invalidRedirect
  | savedRedirect
  | errorRedirect
deriving Repr, DecidableEq

/-- The `UNIQUE(agent_id, wallet_address)` check for a prospective insert:
only an identified (non-`NULL`) wallet can conflict. -/
def ratingConflict (s : Store) (aid : Int) (w : Option String) : Bool :=
  match w with
  | none => false
  | some wa => s.ratings.any (fun r => r.agent_id == aid && r.wallet_address == some wa)

/-- `POST /rate`: parse `agent_id` and `stars` with `parseInt`, reject when
either is `NaN` or stars is outside 1..5; otherwise run
`INSERT INTO ratings (agent_id, stars, comment) VALUES (?, ?, ?)` — the
handler never reads the session, so `wallet_address` is always `NULL`. -/
def rate (s : Store) (req : RateReq) : RateOutcome × Store :=
  match jsParseIntOpt req.agent_id, jsParseIntOpt req.stars with
  | some aid, some st =>
    if st < 1 ∨ 5 < st then (.invalidRedirect, s)
    else if ratingConflict s aid none then (.errorRedirect, s)
    else
      (.savedRedirect,
        { s with
          ratings := s.ratings ++
            [{ id := s.nextRatingId, agent_id := aid, wallet_address := none,
               stars := st.toNat,
               comment := if sTruthy req.comment then some (sVal req.comment) else none,
               created_at := s.now }],
          nextRatingId := s.nextRatingId + 1, now := s.now + 1 })
  | _, _ => (.invalidRedirect, s)

/-! ### `POST /submit` -/

/-- The form body of an agent submission; absent fields are `none`. -/
structure SubmitReq where
  name : Option String
  description : Option String
  category : Option String
  link : Option String
  ipfs_hash : Option String
  tags : Option String
  is_premium : Option String
  original_agent_id : Option String
deriving Repr, DecidableEq

/-- Outcome of the submission handler. -/
inductive SubmitOutcome where
  | validationError
  | urlError
  | ok (id : Nat)
deriving Repr, DecidableEq

/-- `UPDATE agents SET fork_count = fork_count + 1 WHERE id = ?`. -/
def bumpFork (oid : Int) (l : List Agent) : List Agent :=
  l.map (fun a => if (a.id : Int) = oid then { a with fork_count := a.fork_count + 1 } else a)

/-- The row the submission `INSERT` creates: explicitly named columns from
the request, every other column at its schema default. -/
def newAgent (s : Store) (req : SubmitReq) : Agent :=
  { id := s.nextAgentId, name := sVal req.name, description := sVal req.description,
    category := sVal req.category, link := sVal req.link,
    ipfs_hash := none, creator_wallet := none,
    original_agent_id := parseLineage req.original_agent_id,
    fork_count := 0, is_premium := false, created_at := s.now }

/-- `POST /submit`: reject when any of name/description/category/link is falsy,
then when the link fails the URL pattern; otherwise insert a new agent row.
The handler destructures `ipfs_hash`, `tags`, `is_premium` and computes
`creatorWallet` from the session, but the `INSERT` names only
`(name, description, category, link[, original_agent_id])`, so the remaining
columns take their defaults. After the insert, a truthy parsed lineage id
triggers the fork-count `UPDATE` on the (already extended) table. -/
def submit (s : Store) (user : Option String) (req : SubmitReq) : SubmitOutcome × Store :=
  if !(sTruthy req.name && sTruthy req.description && sTruthy req.category && sTruthy req.link) then
    (.validationError, s)
  else if !(urlOk (sVal req.link)) then
    (.urlError, s)
  else
    let agents1 := s.agents ++ [newAgent s req]
    let agents2 :=
      match parseLineage req.original_agent_id with
      | some oid => bumpFork oid agents1
      | none => agents1
    (.ok s.nextAgentId,
      { s with agents := agents2, nextAgentId := s.nextAgentId + 1, now := s.now + 1 })

/-! ### `GET /browse` -/

/-- The query string of a browse request. -/
structure BrowseQuery where
  category : Option String
  search : Option String
  sort : Option String
deriving Repr, DecidableEq

/-- `if (category && category !== 'all') whereClause += 'a.category = ?'`. -/
def catFilter (q : BrowseQuery) (a : Agent) : Bool :=
  if sTruthy q.category && (sVal q.category != "all") then a.category == sVal q.category
  else true

/-- `if (search) whereClause += '(a.name LIKE ? OR a.description LIKE ?)'`
with parameters `%search%`. -/
def searchFilter (q : BrowseQuery) (a : Agent) : Bool :=
  if sTruthy q.search then
    likeStr ("%" ++ sVal q.search ++ "%") a.name ||
    likeStr ("%" ++ sVal q.search ++ "%") a.description
  else true

/-- The composed `WHERE` clause of the browse query. -/
def browseWhere (q : BrowseQuery) (a : Agent) : Bool := catFilter q a && searchFilter q a

/-- The agent's rating rows (`LEFT JOIN ratings r ON a.id = r.agent_id`). -/
def agentRatingRows (s : Store) (a : Agent) : List RatingRow :=
  s.ratings.filter (fun r => r.agent_id == (a.id : Int))

/-- The agent's junction rows (`LEFT JOIN agent_tags at ON a.id = at.agent_id`). -/
def agentTagLinks (s : Store) (a : Agent) : List AgentTagRow :=
  s.agent_tags.filter (fun t => t.agent_id == a.id)

/-- `LEFT JOIN tags t ON at.tag_id = t.id` for one junction row. -/
def tagName (s : Store) (tid : Nat) : Option String :=
  (s.tags.find? (fun t => t.id == tid)).map TagRow.name

/-- `LEFT JOIN` row multiplication: an empty right side contributes a single
`NULL` row, a non-empty one contributes each match. -/
def leftOpt {α : Type} : List α → List (Option α)
  | [] => [none]
  | l => l.map some

/-- The joined rows of one agent's group: the ratings join multiplied by the
agent-tags join (this is the fan-out the single `GROUP BY a.id` query
produces). -/
def joinRows (s : Store) (a : Agent) : List (Option RatingRow × Option AgentTagRow) :=
  (leftOpt (agentRatingRows s a)).flatMap
    (fun r => (leftOpt (agentTagLinks s a)).map (fun t => (r, t)))

/-- `COALESCE(AVG(r.stars), 0)` over the group's joined rows: the exact
rational mean of the non-`NULL` star values, `0` when there are none. -/
def avgRating (s : Store) (a : Agent) : ℚ :=
  let stars := (joinRows s a).filterMap (fun rt => rt.1.map (fun r => (r.stars : Int)))
  if stars.length = 0 then 0 else mkRat stars.sum stars.length

/-- `COUNT(r.id)` over the group's joined rows (counts non-`NULL` rating ids). -/
def ratingCount (s : Store) (a : Agent) : Nat :=
  ((joinRows s a).filter (fun rt => rt.1.isSome)).length

/-- `GROUP_CONCAT(t.name)` over the group's joined rows (`NULL` when no
non-`NULL` name occurs). -/
def tagsConcat (s : Store) (a : Agent) : Option String :=
  match (joinRows s a).filterMap (fun rt => rt.2.bind (fun l => tagName s l.tag_id)) with
  | [] => none
  | ns => some (String.intercalate "," ns)

/-- `u.wallet_address as creator_wallet` from
`LEFT JOIN users u ON a.creator_wallet = u.wallet_address` (overrides the
agent's own column; `NULL` when no user row matches). -/
def creatorWalletOut (s : Store) (a : Agent) : Option String :=
  match a.creator_wallet with
  | none => none
  | some w => if s.users.any (fun u => u.wallet_address == w) then some w else none

/-- One row of the browse result set. -/
structure BrowseRow where
  agent : Agent
  creator_wallet : Option String
  avg_rating : ℚ
  rating_count : Nat
  tags : Option String
deriving Repr, DecidableEq

/-- Compute one agent's aggregated view row. -/
def browseRow (s : Store) (a : Agent) : BrowseRow :=
  { agent := a, creator_wallet := creatorWalletOut s a, avg_rating := avgRating s a,
    rating_count := ratingCount s a, tags := tagsConcat s a }

/-- `a.fork_count * 0.7 + COALESCE(AVG(r.stars), 0) * rating_count * 0.3`. -/
def trendScore (r : BrowseRow) : ℚ :=
  (r.agent.fork_count : ℚ) * (7 / 10) + r.avg_rating * (r.rating_count : ℚ) * (3 / 10)

/-- Insert an element into a list so that it precedes the first element it may
precede (per the boolean relation `le`). -/
def insertLe {α : Type} (le : α → α → Bool) (x : α) : List α → List α
  | [] => [x]
  | y :: t => if le x y then x :: y :: t else y :: insertLe le x t

/-- Stable insertion sort by the boolean precedence relation `le` (the
embedding of the query's `ORDER BY`: any engine ordering is pairwise
consistent with the comparator, and this one is additionally stable). -/
def sortLe {α : Type} (le : α → α → Bool) : List α → List α
  | [] => []
  | x :: t => insertLe le x (sortLe le t)

/-- `ORDER BY avg_rating DESC, rating_count DESC` as a boolean precedence
relation: `x` may come before `y`. -/
def ratingLe (x y : BrowseRow) : Bool :=
  decide (y.avg_rating < x.avg_rating) ||
    (decide (x.avg_rating = y.avg_rating) && decide (y.rating_count ≤ x.rating_count))

/-- The `ORDER BY` clause selected from the `sort` query parameter
(`recent` by default). -/
def browseLe (sort : Option String) : BrowseRow → BrowseRow → Bool :=
  if sort == some "rating" then ratingLe
  else if sort == some "forks" then
    fun x y => decide (y.agent.fork_count ≤ x.agent.fork_count)
  else if sort == some "trending" then
    fun x y => decide (trendScore y ≤ trendScore x)
  else fun x y => decide (y.agent.created_at ≤ x.agent.created_at)

/-- `GET /browse`: filter the agents by the composed `WHERE` clause, aggregate
each group, and order by the selected sort key. -/
def browse (s : Store) (q : BrowseQuery) : List BrowseRow :=
  sortLe (browseLe q.sort) ((s.agents.filter (browseWhere q)).map (browseRow s))

/-! ### Request-level operations and reachability -/

/-- One HTTP request against the mutating surface of the server. -/
inductive Op where
  | opLogin (wallet signature : Option String)
  | opLogout
  | opRate (req : RateReq)
  | opSubmit (user : Option String) (req : SubmitReq)

/-- The store after handling one request (logout touches only the session map). -/
def applyOp (s : Store) : Op → Store
  | .opLogin w sig => (login s w sig).2
  | .opLogout => s
  | .opRate r => (rate s r).2
  | .opSubmit u r => (submit s u r).2

/-- Run a request trace from a store. -/
def runOps (s : Store) (ops : List Op) : Store := ops.foldl applyOp s

/-- A store state the server can reach from the fresh database. -/
def Reachable (s : Store) : Prop := ∃ ops : List Op, runOps initStore ops = s

/-- Number of agent rows whose lineage pointer is the given id. -/
def childCount (agents : List Agent) (i : Nat) : Nat :=
  agents.countP (fun b => b.original_agent_id == some (i : Int))

/-- The fork-count invariant: every agent's stored `fork_count` equals the
number of agent rows pointing at it. -/
def ForkInv (s : Store) : Prop :=
  ∀ a ∈ s.agents, a.fork_count = childCount s.agents a.id

instance (s : Store) : Decidable (ForkInv s) :=
  inferInstanceAs (Decidable (∀ a ∈ s.agents, a.fork_count = childCount s.agents a.id))

/-- Structural invariants of the agents table maintained by the server:
ids are below the auto-increment counter, and every lineage pointer refers
to an agent present in the table; together they let the fork-count
invariant be propagated. -/
structure StoreInv (s : Store) : Prop where
  idsLt : ∀ a ∈ s.agents, a.id < s.nextAgentId
  ptrEx : ∀ a ∈ s.agents, ∀ oid, a.original_agent_id = some oid →
    ∃ b ∈ s.agents, (b.id : Int) = oid
  fork : ForkInv s

/-- The request's lineage pointer, when it parses to a truthy integer,
refers to an agent existing in the current store (only submissions are
restricted; every other operation is unconditionally allowed). -/
def LineageOk (s : Store) : Op → Prop
  | .opSubmit _ req => ∀ oid, parseLineage req.original_agent_id = some oid →
      ∃ b ∈ s.agents, (b.id : Int) = oid
  | _ => True

/-- Store states reachable from the fresh database by request traces whose
fork submissions never carry a dangling lineage pointer. -/
inductive GoodReach : Store → Prop where
  | init : GoodReach initStore
  | step (s : Store) (o : Op) : GoodReach s → LineageOk s o → GoodReach (applyOp s o)

/-! ### Concrete fixtures used by the evaluation theorems -/

/-- A fully populated valid submission: premium, with a content hash. -/
def reqBot1 : SubmitReq :=
  { name := some "Bot1", description := some "d", category := some "Other",
    link := some "http://x.com", ipfs_hash := some "Qm1", tags := none,
    is_premium := some "on", original_agent_id := none }

/-- The store after submitting `reqBot1` from a logged-in session. -/
def sBot1 : Store := (submit initStore (some "0xabc") reqBot1).2

/-- A five-star rating request for agent 1. -/
def rr5 : RateReq := { agent_id := some "1", stars := some "5", comment := none }

/-- A rating request whose stars value is the non-integer string `"3.7"`. -/
def rr37 : RateReq := { agent_id := some "1", stars := some "3.7", comment := none }

/-- A request trace whose first submission carries a dangling lineage pointer
to the id the second submission will receive. -/
def cexOps : List Op :=
  [ .opSubmit none { reqBot1 with original_agent_id := some "2" },
    .opSubmit none reqBot1 ]

/-- An existing user with a non-default tier and a social handle. -/
def uAgency : UserRow :=
  { id := 1, wallet_address := "0xabc", subscription_tier := "agency",
    lens_handle := some "alice", farcaster_handle := none, created_at := 0, last_login := 0 }

/-- A store holding `uAgency`. -/
def sAgency : Store := { initStore with users := [uAgency], nextUserId := 2, now := 5 }

/-- A plain agent row used by the browse fixtures. -/
def agent1 : Agent :=
  { id := 1, name := "Bot1", description := "d", category := "Other", link := "x.com",
    ipfs_hash := none, creator_wallet := none, original_agent_id := none,
    fork_count := 0, is_premium := false, created_at := 0 }

/-- A store where agent 1 has two ratings and two tags (schema-conformant:
distinct rating wallets, stars in range, junction keyed by both ids). -/
def sC8 : Store :=
  { initStore with
    agents := [agent1],
    ratings :=
      [ { id := 1, agent_id := 1, wallet_address := some "0xa", stars := 5,
          comment := none, created_at := 1 },
        { id := 2, agent_id := 1, wallet_address := some "0xb", stars := 3,
          comment := none, created_at := 2 } ],
    tags := [{ id := 1, name := "ai" }, { id := 2, name := "nlp" }],
    agent_tags := [{ agent_id := 1, tag_id := 1 }, { agent_id := 1, tag_id := 2 }],
    nextAgentId := 2, nextRatingId := 3, now := 3 }

/-- A browse query with no filters and the default sort. -/
def qNone : BrowseQuery := { category := none, search := none, sort := none }

/-- A store holding a single agent named `"Alpha"`. -/
def sAlpha : Store :=
  { initStore with agents := [{ agent1 with name := "Alpha" }], nextAgentId := 2 }

/-- A browse query searching for the lower-case string `"alpha"`. -/
def qAlpha : BrowseQuery := { category := none, search := some "alpha", sort := none }

/-- The row the `reqBot1` submission stores (note the defaulted columns). -/
def agentBot1 : Agent :=
  { id := 1, name := "Bot1", description := "d", category := "Other", link := "http://x.com",
    ipfs_hash := none, creator_wallet := none, original_agent_id := none,
    fork_count := 0, is_premium := false, created_at := 0 }

/-- A valid fork submission pointing at agent 1. -/
def reqFork : SubmitReq := { reqBot1 with name := some "Fork of Bot1", original_agent_id := some "1" }

/-- A rating request with the out-of-range stars value `"6"`. -/
def rr6 : RateReq := { agent_id := some "1", stars := some "6", comment := none }

/-- An otherwise-valid submission whose lineage field is the string `"0"`. -/
def req0 : SubmitReq := { reqBot1 with original_agent_id := some "0" }

/-- A DeFi agent named `"Trading Bot"`. -/
def aW6 : Agent := { agent1 with name := "Trading Bot", category := "DeFi" }

/-- A store with one DeFi agent and one Gaming agent. -/
def sW6 : Store :=
  { initStore with
    agents := [ aW6, { agent1 with id := 2, name := "Arena", category := "Gaming", created_at := 1 } ],
    nextAgentId := 3, now := 2 }

/-- A browse query filtering on category `"DeFi"` and searching for `"bot"`. -/
def qW6 : BrowseQuery := { category := some "DeFi", search := some "bot", sort := none }

/-- A store where agent 2 has two five-star ratings and agent 1 has one. -/
def sW7 : Store :=
  { initStore with
    agents := [ agent1, { agent1 with id := 2, name := "Bot2", created_at := 1 } ],
    ratings :=
      [ { id := 1, agent_id := 1, wallet_address := none, stars := 5, comment := none, created_at := 1 },
        { id := 2, agent_id := 2, wallet_address := none, stars := 5, comment := none, created_at := 2 },
        { id := 3, agent_id := 2, wallet_address := none, stars := 5, comment := none, created_at := 3 } ],
    nextAgentId := 3, nextRatingId := 4, now := 4 }

/-- A browse query requesting the `"rating"` sort. -/
def qRating : BrowseQuery := { category := none, search := none, sort := some "rating" }

/-! ### Helper lemmas about the handlers -/

theorem submit_orig_eq (s : Store) (u : Option String) (req : SubmitReq)
    (hn : sTruthy req.name = true) (hd : sTruthy req.description = true)
    (hc : sTruthy req.category = true) (hl : sTruthy req.link = true)
    (hu : urlOk (sVal req.link) = true)
    (ho : parseLineage req.original_agent_id = none) :
    submit s u req =
      (SubmitOutcome.ok s.nextAgentId,
        { s with agents := s.agents ++ [newAgent s req],
                 nextAgentId := s.nextAgentId + 1, now := s.now + 1 }) := by
  simp [submit, hn, hd, hc, hl, hu, ho]

theorem submit_fork_eq (s : Store) (u : Option String) (req : SubmitReq) (oid : Int)
    (hn : sTruthy req.name = true) (hd : sTruthy req.description = true)
    (hc : sTruthy req.category = true) (hl : sTruthy req.link = true)
    (hu : urlOk (sVal req.link) = true)
    (ho : parseLineage req.original_agent_id = some oid) :
    submit s u req =
      (SubmitOutcome.ok s.nextAgentId,
        { s with agents := bumpFork oid (s.agents ++ [newAgent s req]),
                 nextAgentId := s.nextAgentId + 1, now := s.now + 1 }) := by
  simp [submit, hn, hd, hc, hl, hu, ho]

theorem bumpFork_append (oid : Int) (l₁ l₂ : List Agent) :
    bumpFork oid (l₁ ++ l₂) = bumpFork oid l₁ ++ bumpFork oid l₂ := by
  simp [bumpFork]

theorem bumpFork_singleton_ne (oid : Int) (c : Agent) (h : (c.id : Int) ≠ oid) :
    bumpFork oid [c] = [c] := by
  simp [bumpFork, h]

theorem bumpFork_bumpFork (oid : Int) (l : List Agent) :
    bumpFork oid (bumpFork oid l) =
      l.map (fun a => if (a.id : Int) = oid
        then { a with fork_count := a.fork_count + 2 } else a) := by
  unfold bumpFork
  rw [List.map_map]
  refine List.map_congr_left ?_
  intro a _
  by_cases h : (a.id : Int) = oid <;> simp [h]

/-! ### Claim C1 -/

/-- Claim C1: evaluating the submission handler at a fully populated valid
submission (premium flag set, content hash given, identified session wallet)
shows the stored row does NOT carry the submitted premium flag, content hash,
or creator wallet: the `INSERT` names only name/description/category/link, so
those columns take their defaults (`0`/`NULL`/`NULL`). The submission itself
succeeds and the stored name/description/category/link and fork_count do
match the claim. -/
theorem C1_submit_drops_premium_hash_wallet :
    (submit initStore (some "0xabc") reqBot1).1 = .ok 1 ∧
    (submit initStore (some "0xabc") reqBot1).2.agents.map
      (fun a => (a.is_premium, a.ipfs_hash, a.creator_wallet)) = [(false, none, none)] ∧
    (submit initStore (some "0xabc") reqBot1).2.agents.map
      (fun a => (a.id, a.name, a.description, a.category, a.link, a.fork_count)) =
      [(1, "Bot1", "d", "Other", "http://x.com", 0)] := by
  decide

/-! ### Claim C2 -/

/-- Claim C2: with agent 1 present and the same identified session active,
submitting the identical rating twice does NOT make the second insert fail:
the handler never writes the session wallet into the row (`INSERT INTO
ratings (agent_id, stars, comment)`), so both rows carry a `NULL`
`wallet_address`, the `UNIQUE(agent_id, wallet_address)` constraint never
fires, and afterwards two rating rows exist for the pair. -/
theorem C2_second_rating_not_rejected :
    (rate sBot1 rr5).1 = .savedRedirect ∧
    (rate (rate sBot1 rr5).2 rr5).1 = .savedRedirect ∧
    (rate (rate sBot1 rr5).2 rr5).2.ratings.map
      (fun r => (r.agent_id, r.wallet_address, r.stars)) =
      [((1 : Int), none, 5), ((1 : Int), none, 5)] := by
  decide

/-! ### Claim C3 -/

/-- Claim C3, counterexample: the state reached by submitting an agent whose
lineage field is the dangling id `"2"` and then submitting a plain agent
(which receives id 2) is reachable, yet violates the fork-count invariant:
agent 2 has `fork_count = 0` while one row points at it. -/
theorem C3_cex_reachable_state_breaks_inv :
    Reachable (runOps initStore cexOps) ∧ ¬ ForkInv (runOps initStore cexOps) :=
  ⟨⟨cexOps, rfl⟩, by decide⟩

/-! ### Frame and invariant lemmas for the reachability argument -/

theorem login_agents_eq (s : Store) (w sig : Option String) :
    ((login s w sig).2).agents = s.agents := by
  unfold login
  split <;> rfl

theorem login_nextAgentId_eq (s : Store) (w sig : Option String) :
    ((login s w sig).2).nextAgentId = s.nextAgentId := by
  unfold login
  split <;> rfl

theorem rate_agents_eq (s : Store) (req : RateReq) :
    ((rate s req).2).agents = s.agents := by
  unfold rate
  split
  · split
    · rfl
    · split <;> rfl
  · rfl

theorem rate_nextAgentId_eq (s : Store) (req : RateReq) :
    ((rate s req).2).nextAgentId = s.nextAgentId := by
  unfold rate
  split
  · split
    · rfl
    · split <;> rfl
  · rfl

theorem StoreInv.of_eq {s s' : Store} (h : StoreInv s)
    (ha : s'.agents = s.agents) (hn : s'.nextAgentId = s.nextAgentId) : StoreInv s' := by
  refine ⟨?_, ?_, ?_⟩
  · rw [ha, hn]
    exact h.idsLt
  · rw [ha]
    exact h.ptrEx
  · unfold ForkInv
    rw [ha]
    exact h.fork

theorem childCount_append (l₁ l₂ : List Agent) (i : Nat) :
    childCount (l₁ ++ l₂) i = childCount l₁ i + childCount l₂ i := by
  simp [childCount, List.countP_append]

theorem childCount_singleton (c : Agent) (i : Nat) :
    childCount [c] i = if c.original_agent_id = some (i : Int) then 1 else 0 := by
  simp [childCount, List.countP_cons]

theorem childCount_bumpFork (oid : Int) (l : List Agent) (i : Nat) :
    childCount (bumpFork oid l) i = childCount l i := by
  unfold childCount bumpFork
  rw [List.countP_map]
  refine List.countP_congr ?_
  intro a _
  by_cases h : (a.id : Int) = oid <;> simp [h, Function.comp]

/-- No agent row of an invariant-satisfying store points at the id the next
insertion will receive. -/
theorem childCount_fresh (s : Store) (h : StoreInv s) :
    childCount s.agents s.nextAgentId = 0 := by
  unfold childCount
  rw [List.countP_eq_zero]
  intro a ha
  simp only [beq_iff_eq]
  intro hcontra
  obtain ⟨b, hb, hbid⟩ := h.ptrEx a ha _ hcontra
  have := h.idsLt b hb
  omega

theorem submit_pres_inv (s : Store) (u : Option String) (req : SubmitReq)
    (h : StoreInv s)
    (hlin : ∀ oid, parseLineage req.original_agent_id = some oid →
      ∃ b ∈ s.agents, (b.id : Int) = oid) :
    StoreInv (submit s u req).2 := by
  cases hv : (sTruthy req.name && sTruthy req.description &&
      sTruthy req.category && sTruthy req.link) with
  | false =>
    have e : submit s u req = (SubmitOutcome.validationError, s) := by
      simp [submit, hv]
    rw [e]
    exact h
  | true =>
    obtain ⟨⟨⟨hn, hd⟩, hc⟩, hl⟩ :
        ((sTruthy req.name = true ∧ sTruthy req.description = true) ∧
          sTruthy req.category = true) ∧ sTruthy req.link = true := by
      simpa [Bool.and_eq_true] using hv
    cases hu : urlOk (sVal req.link) with
    | false =>
      have e : submit s u req = (SubmitOutcome.urlError, s) := by
        simp [submit, hn, hd, hc, hl, hu]
      rw [e]
      exact h
    | true =>
      cases ho : parseLineage req.original_agent_id with
      | none =>
        rw [submit_orig_eq s u req hn hd hc hl hu ho]
        have hcoid : (newAgent s req).original_agent_id = none := by
          simp [newAgent, ho]
        refine ⟨?_, ?_, ?_⟩
        · intro a ha
          show a.id < s.nextAgentId + 1
          rcases List.mem_append.mp ha with ha | ha
          · have := h.idsLt a ha
            omega
          · rcases List.mem_singleton.mp ha with rfl
            show s.nextAgentId < s.nextAgentId + 1
            omega
        · intro a ha oid hoid
          show ∃ b ∈ s.agents ++ [newAgent s req], (b.id : Int) = oid
          rcases List.mem_append.mp ha with ha | ha
          · obtain ⟨b, hb, hbid⟩ := h.ptrEx a ha oid hoid
            exact ⟨b, List.mem_append_left _ hb, hbid⟩
          · rcases List.mem_singleton.mp ha with rfl
            rw [hcoid] at hoid
            exact Option.noConfusion hoid
        · intro a ha
          show a.fork_count = childCount (s.agents ++ [newAgent s req]) a.id
          rw [childCount_append, childCount_singleton, hcoid, if_neg Option.noConfusion,
            Nat.add_zero]
          rcases List.mem_append.mp ha with ha | ha
          · exact h.fork a ha
          · rcases List.mem_singleton.mp ha with rfl
            show (0 : Nat) = childCount s.agents s.nextAgentId
            rw [childCount_fresh s h]
      | some p =>
        obtain ⟨b0, hb0, hb0id⟩ := hlin p ho
        have hb0lt : b0.id < s.nextAgentId := h.idsLt b0 hb0
        have hcne : ((s.nextAgentId : Nat) : Int) ≠ p := by
          rw [← hb0id]
          omega
        have hcoid : (newAgent s req).original_agent_id = some p := by
          simp [newAgent, ho]
        rw [submit_fork_eq s u req p hn hd hc hl hu ho]
        have hsplit : bumpFork p (s.agents ++ [newAgent s req]) =
            bumpFork p s.agents ++ [newAgent s req] := by
          rw [bumpFork_append, bumpFork_singleton_ne _ _ hcne]
        refine ⟨?_, ?_, ?_⟩
        · intro a ha
          show a.id < s.nextAgentId + 1
          rw [hsplit] at ha
          rcases List.mem_append.mp ha with ha | ha
          · obtain ⟨x, hx, rfl⟩ := List.mem_map.mp ha
            have hxlt := h.idsLt x hx
            by_cases hxid : (x.id : Int) = p
            · rw [if_pos hxid]
              show x.id < s.nextAgentId + 1
              omega
            · rw [if_neg hxid]
              omega
          · rcases List.mem_singleton.mp ha with rfl
            show s.nextAgentId < s.nextAgentId + 1
            omega
        · intro a ha oid hoid
          show ∃ b ∈ bumpFork p (s.agents ++ [newAgent s req]), (b.id : Int) = oid
          rw [hsplit] at ha ⊢
          rcases List.mem_append.mp ha with ha | ha
          · obtain ⟨x, hx, rfl⟩ := List.mem_map.mp ha
            have hxoid : x.original_agent_id = some oid := by
              by_cases hxid : (x.id : Int) = p
              · rw [if_pos hxid] at hoid
                exact hoid
              · rw [if_neg hxid] at hoid
                exact hoid
            obtain ⟨b, hb, hbid⟩ := h.ptrEx x hx oid hxoid
            refine ⟨(if (b.id : Int) = p
              then { b with fork_count := b.fork_count + 1 } else b), ?_, ?_⟩
            · exact List.mem_append_left _ (List.mem_map.mpr ⟨b, hb, rfl⟩)
            · by_cases hbp : (b.id : Int) = p
              · rw [if_pos hbp]
                exact hbid
              · rw [if_neg hbp]
                exact hbid
          · rcases List.mem_singleton.mp ha with rfl
            rw [hcoid] at hoid
            cases hoid
            refine ⟨(if (b0.id : Int) = p
              then { b0 with fork_count := b0.fork_count + 1 } else b0), ?_, ?_⟩
            · exact List.mem_append_left _ (List.mem_map.mpr ⟨b0, hb0, rfl⟩)
            · by_cases hbp : (b0.id : Int) = p
              · rw [if_pos hbp]
                exact hb0id
              · rw [if_neg hbp]
                exact hb0id
        · intro a ha
          show a.fork_count = childCount (bumpFork p (s.agents ++ [newAgent s req])) a.id
          rw [hsplit] at ha
          rw [hsplit, childCount_append, childCount_bumpFork, childCount_singleton, hcoid]
          rcases List.mem_append.mp ha with ha | ha
          · obtain ⟨x, hx, rfl⟩ := List.mem_map.mp ha
            have hfx := h.fork x hx
            by_cases hxid : (x.id : Int) = p
            · rw [if_pos hxid]
              show x.fork_count + 1 = childCount s.agents x.id +
                (if some p = some ((x.id : Nat) : Int) then 1 else 0)
              rw [if_pos (by rw [hxid])]
              omega
            · rw [if_neg hxid]
              show x.fork_count = childCount s.agents x.id +
                (if some p = some ((x.id : Nat) : Int) then 1 else 0)
              rw [if_neg (fun hpe => hxid (Option.some.inj hpe).symm)]
              omega
          · rcases List.mem_singleton.mp ha with rfl
            show (0 : Nat) = childCount s.agents s.nextAgentId +
              (if some p = some ((s.nextAgentId : Nat) : Int) then 1 else 0)
            rw [childCount_fresh s h, if_neg (fun hpe => hcne (Option.some.inj hpe).symm)]

theorem goodReach_inv {s : Store} (h : GoodReach s) : StoreInv s := by
  induction h with
  | init =>
    refine ⟨?_, ?_, ?_⟩ <;> intro a ha <;> exact absurd ha (by simp [initStore])
  | step s o hs ho ih =>
    cases o with
    | opLogin w sig => exact ih.of_eq (login_agents_eq s w sig) (login_nextAgentId_eq s w sig)
    | opLogout => exact ih
    | opRate r => exact ih.of_eq (rate_agents_eq s r) (rate_nextAgentId_eq s r)
    | opSubmit u r => exact submit_pres_inv s u r ih ho

/-- Claim C3 (amended): the fork-count invariant — every agent's stored
`fork_count` equals the number of agent rows whose lineage pointer is its id
— holds in every store state reachable from the fresh database by request
traces in which each submission's lineage pointer, when it parses to a
truthy integer, refers to an agent existing at submission time; each such
operation (submission with or without lineage, rating, login, logout)
preserves the invariant. A submission carrying a dangling lineage id can
break the invariant for an agent created later with that id (see the
counterexample). -/
theorem C3_amended_fork_inv_on_good_traces (s : Store) (h : GoodReach s) : ForkInv s :=
  (goodReach_inv h).fork

/-- Witness for the amended C3: the two-step trace "submit Bot1, then fork
it" is a good trace, and the resulting state satisfies the invariant. -/
theorem C3_amended_witness :
    ForkInv (applyOp (applyOp initStore (Op.opSubmit none reqBot1)) (Op.opSubmit none reqFork)) :=
  C3_amended_fork_inv_on_good_traces _
    (GoodReach.step _ _
      (GoodReach.step _ _ GoodReach.init (fun oid hoid => Option.noConfusion hoid))
      (fun oid hoid =>
        ⟨agentBot1, by decide, (Option.some.inj hoid) ▸ (by decide : ((agentBot1.id : Nat) : Int) = 1)⟩))

/-! ### Claim C4 -/

/-- Claim C4: in a store whose agent ids are below the auto-increment counter,
performing two valid fork submissions whose lineage field parses to the id of
the existing agent `A` yields: both submissions succeed with the two fresh
ids, the final agents table is exactly the old table with `A`'s row (matched
by id) incremented by 2 and every other row unchanged, followed by the two
new child rows, each carrying lineage pointer `A.id` and fork count 0. -/
theorem C4_two_forks_increment_parent_by_two
    (s : Store) (A : Agent) (u1 u2 : Option String) (r1 r2 : SubmitReq)
    (hA : A ∈ s.agents) (hlt : ∀ a ∈ s.agents, a.id < s.nextAgentId)
    (h1n : sTruthy r1.name = true) (h1d : sTruthy r1.description = true)
    (h1c : sTruthy r1.category = true) (h1l : sTruthy r1.link = true)
    (h1u : urlOk (sVal r1.link) = true)
    (h1o : parseLineage r1.original_agent_id = some (A.id : Int))
    (h2n : sTruthy r2.name = true) (h2d : sTruthy r2.description = true)
    (h2c : sTruthy r2.category = true) (h2l : sTruthy r2.link = true)
    (h2u : urlOk (sVal r2.link) = true)
    (h2o : parseLineage r2.original_agent_id = some (A.id : Int)) :
    (submit s u1 r1).1 = SubmitOutcome.ok s.nextAgentId ∧
    (submit (submit s u1 r1).2 u2 r2).1 = SubmitOutcome.ok (s.nextAgentId + 1) ∧
    (submit (submit s u1 r1).2 u2 r2).2.agents =
      s.agents.map (fun a => if (a.id : Int) = (A.id : Int)
        then { a with fork_count := a.fork_count + 2 } else a)
      ++ [newAgent s r1, newAgent (submit s u1 r1).2 r2] ∧
    (newAgent s r1).original_agent_id = some (A.id : Int) ∧
    (newAgent (submit s u1 r1).2 r2).original_agent_id = some (A.id : Int) ∧
    (newAgent s r1).id = s.nextAgentId ∧
    (newAgent (submit s u1 r1).2 r2).id = s.nextAgentId + 1 ∧
    (newAgent s r1).fork_count = 0 ∧
    (newAgent (submit s u1 r1).2 r2).fork_count = 0 := by
  have hAid : A.id < s.nextAgentId := hlt A hA
  have e1 := submit_fork_eq s u1 r1 (A.id : Int) h1n h1d h1c h1l h1u h1o
  have e2 := submit_fork_eq (submit s u1 r1).2 u2 r2 (A.id : Int) h2n h2d h2c h2l h2u h2o
  have e1a : (submit s u1 r1).2.agents = bumpFork (A.id : Int) (s.agents ++ [newAgent s r1]) := by
    rw [e1]
  have e1n : (submit s u1 r1).2.nextAgentId = s.nextAgentId + 1 := by
    rw [e1]
  have hc1 : ((newAgent s r1).id : Int) ≠ (A.id : Int) := by
    show (s.nextAgentId : Int) ≠ (A.id : Int)
    omega
  have hc2 : ((newAgent (submit s u1 r1).2 r2).id : Int) ≠ (A.id : Int) := by
    show ((submit s u1 r1).2.nextAgentId : Int) ≠ (A.id : Int)
    rw [e1n]
    omega
  refine ⟨?_, ?_, ?_, by simp [newAgent, h1o], by simp [newAgent, h2o],
    rfl, ?_, rfl, rfl⟩
  · rw [e1]
  · rw [e2, e1n]
  · have e2a : (submit (submit s u1 r1).2 u2 r2).2.agents =
        bumpFork (A.id : Int)
          ((submit s u1 r1).2.agents ++ [newAgent (submit s u1 r1).2 r2]) := by
      rw [e2]
    rw [e2a, e1a, bumpFork_append, bumpFork_singleton_ne _ _ hc2, bumpFork_append,
      bumpFork_singleton_ne _ _ hc1, bumpFork_append, bumpFork_singleton_ne _ _ hc1,
      bumpFork_bumpFork]
    simp
  · show (submit s u1 r1).2.nextAgentId = s.nextAgentId + 1
    exact e1n

/-- Witness for C4: forking `Bot1` twice from the one-agent store doubles its
fork count to 2 and appends the two fork rows. -/
theorem C4_witness :
    agentBot1 ∈ sBot1.agents ∧
    (submit (submit sBot1 none reqFork).2 none reqFork).2.agents =
      sBot1.agents.map (fun a => if (a.id : Int) = (agentBot1.id : Int)
        then { a with fork_count := a.fork_count + 2 } else a)
      ++ [newAgent sBot1 reqFork, newAgent (submit sBot1 none reqFork).2 reqFork] :=
  ⟨by decide,
   (C4_two_forks_increment_parent_by_two sBot1 agentBot1 none none reqFork reqFork
      (by decide) (by decide) (by decide) (by decide) (by decide) (by decide)
      (by decide) (by decide) (by decide) (by decide) (by decide) (by decide)
      (by decide) (by decide)).2.2.1⟩

/-! ### Claim C5 -/

/-- Claim C5, counterexample: a rating request whose `stars` is the
non-integer value `"3.7"` is NOT rejected: `parseInt` truncates it to `3`,
and a rating row with 3 stars is created. -/
theorem C5_cex_noninteger_stars_accepted :
    (rate sBot1 rr37).1 = .savedRedirect ∧
    (rate sBot1 rr37).2.ratings.map (fun r => (r.agent_id, r.stars)) = [((1 : Int), 3)] := by
  decide

/-- Claim C5 (amended): a rating request is rejected with no rating row
created — the store is returned unchanged — exactly in the cases the handler
tests: `parseInt(agent_id)` is `NaN`, or `parseInt(stars)` is `NaN`, or the
parsed stars value lies outside `[1, 5]` (a non-integer string such as
`"3.7"` parses to its integer prefix and is accepted). -/
theorem C5_amended_invalid_rating_rejected (s : Store) (req : RateReq)
    (h : jsParseIntOpt req.agent_id = none ∨ jsParseIntOpt req.stars = none ∨
         ∃ v : Int, jsParseIntOpt req.stars = some v ∧ (v < 1 ∨ 5 < v)) :
    rate s req = (RateOutcome.invalidRedirect, s) := by
  unfold rate
  split
  · rename_i aid st ha hs
    split
    · rfl
    · rename_i hcond
      exfalso
      rcases h with h | h | ⟨v, hv, hr⟩
      · rw [ha] at h; exact Option.noConfusion h
      · rw [hs] at h; exact Option.noConfusion h
      · rw [hs] at hv
        cases hv
        exact hcond hr
  · rfl

/-- Witness for the amended C5: the out-of-range request `stars = "6"`
satisfies the rejection condition and leaves the store untouched. -/
theorem C5_amended_witness :
    (∃ v : Int, jsParseIntOpt rr6.stars = some v ∧ (v < 1 ∨ 5 < v)) ∧
    rate sBot1 rr6 = (RateOutcome.invalidRedirect, sBot1) :=
  ⟨⟨6, by decide, by decide⟩,
   C5_amended_invalid_rating_rejected sBot1 rr6 (Or.inr (Or.inr ⟨6, by decide, by decide⟩))⟩

/-! ### Claim C6 -/

theorem mem_insertLe {α : Type} (le : α → α → Bool) (x a : α) (l : List α) :
    a ∈ insertLe le x l ↔ a = x ∨ a ∈ l := by
  induction l with
  | nil => simp [insertLe]
  | cons y t ih =>
    simp only [insertLe]
    split
    · simp [List.mem_cons]
    · simp only [List.mem_cons, ih]
      tauto

theorem mem_sortLe {α : Type} (le : α → α → Bool) (a : α) (l : List α) :
    a ∈ sortLe le l ↔ a ∈ l := by
  induction l with
  | nil => simp [sortLe]
  | cons x t ih => simp [sortLe, mem_insertLe, ih]

/-- Claim C6, counterexample: browsing with `search = "alpha"` returns the
agent named `"Alpha"` (SQLite `LIKE` is case-insensitive on ASCII), although
the search string is a substring of neither the returned row's name nor its
description. -/
theorem C6_cex_returned_row_without_substring :
    (browse sAlpha qAlpha).map (fun r => r.agent.name) = ["Alpha"] ∧
    containsSub "alpha".data "Alpha".data = false ∧
    containsSub "alpha".data "d".data = false := by
  decide

/-- Claim C6 (amended): for every category/search/sort combination, every row
returned by browse satisfies both active filters: when the category
parameter is truthy and not `"all"` the row's category equals it, and when
the search parameter is truthy the row's name or description matches the
SQLite pattern `%search%` under `LIKE` semantics (ASCII case-insensitive,
with `%`/`_` in the search string acting as wildcards) — which is
case-insensitive containment whenever the search string has no wildcards.
When both filters are active the row satisfies their conjunction. -/
theorem C6_amended_filters_sound (s : Store) (q : BrowseQuery) (r : BrowseRow)
    (hr : r ∈ browse s q) :
    (sTruthy q.category = true → sVal q.category ≠ "all" →
      r.agent.category = sVal q.category) ∧
    (sTruthy q.search = true →
      (likeStr ("%" ++ sVal q.search ++ "%") r.agent.name = true ∨
       likeStr ("%" ++ sVal q.search ++ "%") r.agent.description = true)) := by
  unfold browse at hr
  rw [mem_sortLe] at hr
  obtain ⟨a, ha, rfl⟩ := List.mem_map.mp hr
  obtain ⟨haMem, hw⟩ := List.mem_filter.mp ha
  unfold browseWhere at hw
  have hcat : catFilter q a = true := (Bool.and_eq_true_iff.mp hw).1
  have hsearch : searchFilter q a = true := (Bool.and_eq_true_iff.mp hw).2
  constructor
  · intro htr hne
    unfold catFilter at hcat
    rw [htr] at hcat
    have hne' : (sVal q.category != "all") = true := bne_iff_ne.mpr hne
    rw [hne'] at hcat
    simp only [Bool.and_self, if_true] at hcat
    exact beq_iff_eq.mp hcat
  · intro hts
    unfold searchFilter at hsearch
    rw [hts] at hsearch
    simp only [if_true] at hsearch
    exact Bool.or_eq_true_iff.mp hsearch

/-- Witness for the amended C6: with category `"DeFi"` and search `"bot"`
both active, the returned `"Trading Bot"` row satisfies both predicates. -/
theorem C6_amended_witness :
    browseRow sW6 aW6 ∈ browse sW6 qW6 ∧
    (browseRow sW6 aW6).agent.category = sVal qW6.category ∧
    (likeStr ("%" ++ sVal qW6.search ++ "%") (browseRow sW6 aW6).agent.name = true ∨
     likeStr ("%" ++ sVal qW6.search ++ "%") (browseRow sW6 aW6).agent.description = true) :=
  ⟨by decide,
   (C6_amended_filters_sound sW6 qW6 (browseRow sW6 aW6) (by decide)).1 (by decide) (by decide),
   (C6_amended_filters_sound sW6 qW6 (browseRow sW6 aW6) (by decide)).2 (by decide)⟩

/-! ### Claim C7 -/

theorem pairwise_insertLe {α : Type} {le : α → α → Bool}
    (htot : ∀ a b, le a b = true ∨ le b a = true)
    (htrans : ∀ a b c, le a b = true → le b c = true → le a c = true)
    (x : α) {l : List α} (hl : l.Pairwise (fun a b => le a b = true)) :
    (insertLe le x l).Pairwise (fun a b => le a b = true) := by
  induction l with
  | nil => simp [insertLe]
  | cons y t ih =>
    obtain ⟨hy, ht⟩ := List.pairwise_cons.mp hl
    simp only [insertLe]
    split
    · rename_i hxy
      refine List.Pairwise.cons ?_ hl
      intro b hb
      rcases List.mem_cons.mp hb with rfl | hbt
      · exact hxy
      · exact htrans x y b hxy (hy b hbt)
    · rename_i hxy
      have hyx : le y x = true := (htot x y).resolve_left hxy
      refine List.Pairwise.cons ?_ (ih ht)
      intro b hb
      rcases (mem_insertLe le x b t).mp hb with rfl | hbt
      · exact hyx
      · exact hy b hbt

theorem pairwise_sortLe {α : Type} {le : α → α → Bool}
    (htot : ∀ a b, le a b = true ∨ le b a = true)
    (htrans : ∀ a b c, le a b = true → le b c = true → le a c = true)
    (l : List α) :
    (sortLe le l).Pairwise (fun a b => le a b = true) := by
  induction l with
  | nil => simp [sortLe]
  | cons x t ih => exact pairwise_insertLe htot htrans x ih

theorem ratingLe_total : ∀ x y : BrowseRow, ratingLe x y = true ∨ ratingLe y x = true := by
  intro x y
  unfold ratingLe
  rcases lt_trichotomy x.avg_rating y.avg_rating with h | h | h
  · right; simp [h]
  · rcases Nat.le_total y.rating_count x.rating_count with hc | hc
    · left; simp [h, hc]
    · right; simp [h.symm, hc]
  · left; simp [h]

theorem ratingLe_trans : ∀ x y z : BrowseRow,
    ratingLe x y = true → ratingLe y z = true → ratingLe x z = true := by
  intro x y z hxy hyz
  unfold ratingLe at hxy hyz ⊢
  simp only [Bool.or_eq_true, Bool.and_eq_true, decide_eq_true_eq] at hxy hyz ⊢
  rcases hxy with h1 | ⟨h1e, h1c⟩
  · rcases hyz with h2 | ⟨h2e, h2c⟩
    · exact Or.inl (lt_trans h2 h1)
    · exact Or.inl (lt_of_le_of_lt (le_of_eq h2e.symm) h1)
  · rcases hyz with h2 | ⟨h2e, h2c⟩
    · exact Or.inl (lt_of_lt_of_le h2 (le_of_eq h1e.symm))
    · exact Or.inr ⟨h1e.trans h2e, le_trans h2c h1c⟩

/-- Claim C7: with sort mode `"rating"`, the browse result is ordered with
non-increasing average stars, and any two adjacent rows with equal average
stars have non-increasing rating count. -/
theorem C7_rating_sort_ordered (s : Store) (q : BrowseQuery) (h : q.sort = some "rating") :
    (browse s q).Chain' (fun x y => y.avg_rating ≤ x.avg_rating ∧
      (x.avg_rating = y.avg_rating → y.rating_count ≤ x.rating_count)) := by
  have hb : browseLe q.sort = ratingLe := by rw [h]; rfl
  unfold browse
  rw [hb]
  have hp := pairwise_sortLe ratingLe_total ratingLe_trans
    ((s.agents.filter (browseWhere q)).map (browseRow s))
  refine (List.Pairwise.chain' hp).imp ?_
  intro a b hab
  unfold ratingLe at hab
  simp only [Bool.or_eq_true, Bool.and_eq_true, decide_eq_true_eq] at hab
  rcases hab with h1 | ⟨h1, h2⟩
  · refine ⟨le_of_lt h1, ?_⟩
    intro he
    rw [he] at h1
    exact absurd h1 (lt_irrefl _)
  · exact ⟨le_of_eq h1.symm, fun _ => h2⟩

/-- Witness for C7: on a store where agent 2 averages 5 stars from two
ratings and agent 1 averages 5 stars from one, the rating sort returns
agent 2 first and the chain condition holds. -/
theorem C7_witness :
    qRating.sort = some "rating" ∧
    (browse sW7 qRating).map (fun r => (r.agent.id, r.avg_rating, r.rating_count)) =
      [(2, (5 : ℚ), 2), (1, (5 : ℚ), 1)] ∧
    (browse sW7 qRating).Chain' (fun x y => y.avg_rating ≤ x.avg_rating ∧
      (x.avg_rating = y.avg_rating → y.rating_count ≤ x.rating_count)) :=
  ⟨rfl, by decide, C7_rating_sort_ordered sW7 qRating rfl⟩

/-! ### Claim C10 -/

/-- Claim C10: an otherwise-valid submission whose `original_agent_id` does
not parse to a truthy integer succeeds with the new id, appends the row as
an original (`NULL` lineage pointer) leaving every pre-existing agent row —
in particular every fork count — untouched, and reports no error. -/
theorem C10_falsy_lineage_inserts_original (s : Store) (user : Option String) (req : SubmitReq)
    (hn : sTruthy req.name = true) (hd : sTruthy req.description = true)
    (hc : sTruthy req.category = true) (hl : sTruthy req.link = true)
    (hu : urlOk (sVal req.link) = true)
    (ho : parseLineage req.original_agent_id = none) :
    submit s user req =
      (SubmitOutcome.ok s.nextAgentId,
        { s with agents := s.agents ++ [newAgent s req],
                 nextAgentId := s.nextAgentId + 1, now := s.now + 1 }) ∧
    (newAgent s req).original_agent_id = none := by
  refine ⟨submit_orig_eq s user req hn hd hc hl hu ho, ?_⟩
  simp [newAgent, ho]

/-- Witness for C10: the lineage strings `"0"`, `""`, `"abc"` and an absent
field all fail the truthiness test, and submitting with lineage `"0"`
appends an original row to the fresh store. -/
theorem C10_witness :
    (parseLineage (some "0") = none ∧ parseLineage none = none ∧
     parseLineage (some "") = none ∧ parseLineage (some "abc") = none) ∧
    submit initStore none req0 =
      (SubmitOutcome.ok 1,
        { initStore with agents := [newAgent initStore req0], nextAgentId := 2, now := 1 }) :=
  ⟨by decide,
   (C10_falsy_lineage_inserts_original initStore none req0 (by decide) (by decide)
      (by decide) (by decide) (by decide) (by decide)).1⟩

/-! ### Claim C8 -/

/-- Claim C8: with two ratings and two tags on agent 1, the browse query's
`LEFT JOIN`s multiply the rating rows by the tag rows before `GROUP BY a.id`,
so `COUNT(r.id)` reports 4 although exactly 2 rating rows reference the
agent, and `GROUP_CONCAT(t.name)` lists every tag name once per rating.
(`AVG(r.stars)` is unaffected by the uniform duplication and still equals
the true mean 4.) -/
theorem C8_join_fanout_inflates_count_and_tags :
    (browse sC8 qNone).map (fun r => (r.rating_count, r.avg_rating, r.tags)) =
      [(4, (4 : ℚ), some "ai,nlp,ai,nlp")] ∧
    (sC8.ratings.filter (fun r => r.agent_id == (1 : Int))).length = 2 ∧
    sC8.tags.map TagRow.name = ["ai", "nlp"] := by
  decide

/-! ### Claim C9 -/

/-- Claim C9: logging in again as the existing user `"0xabc"` (tier
`"agency"`, a lens handle, created at time 0) does not merely refresh the
last-login: `INSERT OR REPLACE` deletes the row and inserts a fresh one, so
the subscription tier resets to the default `"creator"`, the social handle
is wiped, the creation timestamp is reset to the login time, and the row id
changes. -/
theorem C9_login_replace_wipes_fields :
    (login sAgency (some "0xabc") none).1 = .ok "0xabc" ∧
    (login sAgency (some "0xabc") none).2.users =
      [{ id := 2, wallet_address := "0xabc", subscription_tier := "creator",
         lens_handle := none, farcaster_handle := none, created_at := 5, last_login := 5 }] := by
  decide

end Marketplace
